import Mathlib

/-! Verification of the tandem aerosol-classifier automation core
(instruments.py and tandem.py): sweep-axis construction, device readiness,
feedback averaging, response framing, command-acknowledgement parsing,
dynamic-range recomputation and the scan-orchestration loop, modelled
shallowly in Lean. Floating-point arithmetic of the source is modelled by
exact real (for logarithms and powers) or rational arithmetic; Python
exceptions are modelled by Option results. -/

namespace Tandem

/-- Number of sweep points, from Classifier.__init__ in instruments.py:
points = math.floor((perdec*(math.log10(end)-math.log10(start)))+0.00001)+1. -/
noncomputable def sweepPoints (start stop perdec : ℝ) : ℤ :=
  ⌊perdec * (Real.logb 10 stop - Real.logb 10 start) + 0.00001⌋ + 1

/-- Setpoint at index p, from Classifier.getPoint:
start*((10.0**(1.0/perdec))**p). -/
noncomputable def getPoint (start perdec : ℝ) (p : ℕ) : ℝ :=
  start * ((10 : ℝ) ^ ((1 : ℝ) / perdec)) ^ p

/-- Mass-mobility diameter computed by AAC.VarDiameter (and the identical
formula in TSI3082.VarDiameter): dmStar = pow((mStar*(10**-18))/K, 1/Dm)*(10**9). -/
noncomputable def dmStar (mStar K Dm : ℝ) : ℝ :=
  ((mStar * (10 : ℝ) ^ (-18 : ℤ)) / K) ^ ((1 : ℝ) / Dm) * (10 : ℝ) ^ (9 : ℕ)

/-- Axis bounds set by AAC.VarDiameter: self.start = pow(dmStar, f_lower) and
self.end = pow(dmStar, f_upper). -/
noncomputable def VarDiameter (K Dm fLower fUpper mStar : ℝ) : ℝ × ℝ :=
  (dmStar mStar K Dm ^ fLower, dmStar mStar K Dm ^ fUpper)

/-- f_lower used by AAC.__init__: the supplied value, or 0.85 when the text
box is empty or absent. -/
noncomputable def fLowerOf (s : Option ℝ) : ℝ := s.getD 0.85

/-- f_upper used by AAC.__init__: the supplied value, or 1.1 when the text
box is empty or absent. -/
noncomputable def fUpperOf (s : Option ℝ) : ℝ := s.getD 1.1

/-- Water preset material constants (PreFactor K, Exponent Dm) from
AAC.__init__. -/
noncomputable def waterPreset : ℝ × ℝ := (523.6, 3)

/-- TSI3082 stepped-mode readiness tolerance (class attribute
tolerance = 0.05 in instruments.py). -/
def tolerance : ℚ := 0.05

/-- TSI3082.isReady in stepped mode, on the parsed sheath-flow setpoint ss,
sheath-flow feedback sm, voltage setpoint vs and voltage feedback vm:
abs((ss-sm)/ss) < tolerance and abs((vs-vm)/vs) < tolerance. -/
def TSI3082.isReady (ss sm vs vm : ℚ) : Bool :=
  decide (|(ss - sm) / ss| < tolerance) && decide (|(vs - vm) / vs| < tolerance)

/-- Instrument.match from instruments.py: s[0:len(v)] == v. -/
def matchStr (s v : List Char) : Bool := s.take v.length == v

/-- The OK acknowledgement looked for by CambustionClass.sendAndCheck. -/
def okStr : List Char := ['O', 'K']

/-- The ERROR marker looked for by TSIDma.sendAndCheck. -/
def errorStr : List Char := ['E', 'R', 'R', 'O', 'R']

/-- CambustionClass.sendAndCheck on the received response: success iff the
response starts with OK. -/
def CambustionClass.sendAndCheck (rsp : List Char) : Bool := matchStr rsp okStr

/-- TSIDma.sendAndCheck on the received response: success iff the response
does not start with ERROR. -/
def TSIDma.sendAndCheck (rsp : List Char) : Bool := !(matchStr rsp errorStr)

/-- State of a stepped Classifier from instruments.py: the sweep bookkeeping
of Classifier.__init__ (points, the setpoint table X, the index point that
starts at -1, the current setpoint x) and the per-point feedback accumulators
(values, one running sum per entry of valueFields, and tally). Feedback
floats are modelled as exact rationals. -/
structure StepClassifier where
  points : ℕ
  X : List ℚ
  point : ℤ
  x : ℚ
  values : List ℚ
  tally : ℕ
deriving DecidableEq, Repr

/-- Classifier.moreToCome: point + 1 < points. -/
def StepClassifier.moreToCome (c : StepClassifier) : Bool :=
  decide (c.point + 1 < (c.points : ℤ))

/-- Classifier.next: zero the accumulators, advance the index, look up the
new setpoint in X and issue the set command, whose device acknowledgement is
the ack argument. The second component is some ack normally and none when
X[point] is out of bounds, modelling the IndexError numpy raises there; the
first component is the object state after the call, including the mutations
made before the raise. -/
def StepClassifier.next (c : StepClassifier) (ack : Bool) : StepClassifier × Option Bool :=
  let c1 : StepClassifier :=
    { c with values := c.values.map (fun _ => 0), tally := 0, point := c.point + 1 }
  if 0 ≤ c1.point ∧ c1.point.toNat < c.X.length then
    ({ c1 with x := c.X.getD c1.point.toNat 0 }, some ack)
  else
    (c1, none)

/-- Classifier.reset: point = -1. -/
def StepClassifier.reset (c : StepClassifier) : StepClassifier := { c with point := -1 }

/-- Classifier.monitor: add each feedback channel of one response r to the
running sums and bump the tally. -/
def StepClassifier.monitor (c : StepClassifier) (r : List ℚ) : StepClassifier :=
  { c with values := (c.values.zip r).map (fun p => p.1 + p.2), tally := c.tally + 1 }

/-- Classifier.getFileData: the current setpoint together with each channel
sum divided by tally; none models the ZeroDivisionError Python raises when
tally = 0. -/
def StepClassifier.getFileData (c : StepClassifier) : Option (ℚ × List ℚ) :=
  if c.tally = 0 then none
  else some (c.x, c.values.map (fun v => v / (c.tally : ℚ)))

/-- Response terminator looked for by CambustionClass.getRsp. -/
def rspTerm : List Char := ['\r', '\n', '>']

/-- Index of the first occurrence of pat as a contiguous substring, or none. -/
def findSub (pat : List Char) : List Char → Option ℕ
  | [] => if pat.isPrefixOf [] then some 0 else none
  | a :: t => if pat.isPrefixOf (a :: t) then some 0 else (findSub pat t).map (· + 1)

/-- Python str.find: the index of the first occurrence, or -1. -/
def pyFind (s pat : List Char) : ℤ :=
  match findSub pat s with
  | some k => (k : ℤ)
  | none => -1

/-- Python slice s[0:k] with k possibly negative, as in chunks[0:-1]. -/
def pySlice (s : List Char) (k : ℤ) : List Char :=
  if k < 0 then s.take ((s.length : ℤ) + k).toNat else s.take k.toNat

/-- Final expression of CambustionClass.getRsp:
chunks[0:chunks.find(terminator)].replace(gtChar, nothing) — slice up to the
find result (which is -1 on timeout) and delete every greater-than sign. -/
def finishRsp (chunks : List Char) : List Char :=
  (pySlice chunks (pyFind chunks rspTerm)).filter (fun c => c != '>')

/-- Chunk-accumulation loop of CambustionClass.getRsp. Each list entry is one
read from the transport: some chunk, or none for an I/O exception.
Exhaustion of the list models expiry of the timeout with more reads pending.
Returns the response text and the connected flag after the call. -/
def getRspAux : List (Option (List Char)) → List Char → List Char × Bool
  | [], chunks => (finishRsp chunks, true)
  | none :: _, chunks =>
    if 0 ≤ pyFind chunks rspTerm then (finishRsp chunks, true) else ([], false)
  | some c :: rest, chunks =>
    if 0 ≤ pyFind chunks rspTerm then (finishRsp chunks, true)
    else getRspAux rest (chunks ++ c)

/-- CambustionClass.getRsp starting from an empty accumulator. -/
def getRsp (reads : List (Option (List Char))) : List Char × Bool :=
  getRspAux reads []

/-- Tag of one logged row: a bypass row (first-classifier fields replaced by
the Bypassed placeholder in Ui.plotIt) or a classified row at the given
outer index. -/
inductive RowTag
  | bypass
  | classified (outer : ℕ)
deriving DecidableEq, Repr

/-- Externally visible events of a stepped scan: a logged row with its inner
index, a set-setpoint command to the first (outer) or second (inner)
classifier, and one concentration sample of the counter. -/
inductive ScanEv
  | row (tag : RowTag) (inner : ℕ)
  | outerSet
  | innerSet
  | concSample
deriving DecidableEq, Repr

/-- Scan configuration: the two sweep lengths (firstClass.points and
secondClass.points), the Bypass checkbox and the averaging count. -/
structure ScanConfig where
  nOuter : ℕ
  mInner : ℕ
  bypassEnabled : Bool
  ave : ℕ
deriving DecidableEq, Repr

/-- Scan state kept on the Ui object across timer ticks: firstClass.point
(fp), secondClass.point (sp), doBypass, finalBypass and isScanning. -/
structure ScanState where
  fp : ℤ
  sp : ℤ
  doBypass : Bool
  finalBypass : Bool
  scanning : Bool
deriving DecidableEq, Repr

/-- Row tag written by Ui.plotIt: the bypassDummy placeholder when doBypass
is set, else the first classifier data at its current point. -/
def rowTagOf (doBypass : Bool) (fp : ℤ) : RowTag :=
  if doBypass then RowTag.bypass else RowTag.classified fp.toNat

/-- One invocation of Ui.next for a stepped (non-self-scanning) second
classifier, with both classifiers ready, all commands acknowledged and no
cancellation. Ui.plotIt samples the counter ave times and commits one row;
then, following tandem.py: mid-sweep the second classifier steps
(secondClass.next); at the end of the second sweep doBypass is cleared and
either the first classifier advances (firstClass.next after reset, then
secondClass.next), or, past the last outer point, the scan ends (endScan)
unless an enabled bypass still owes its final pass, in which case doBypass
and finalBypass are set and one more inner sweep starts. -/
def uiNext (cfg : ScanConfig) (st : ScanState) : ScanState × List ScanEv :=
  let rowEvs : List ScanEv :=
    List.replicate cfg.ave ScanEv.concSample ++
      [ScanEv.row (rowTagOf st.doBypass st.fp) st.sp.toNat]
  if st.sp + 1 < (cfg.mInner : ℤ) then
    ({ st with sp := st.sp + 1 }, rowEvs ++ [ScanEv.innerSet])
  else if st.fp + 1 < (cfg.nOuter : ℤ) then
    ({ st with doBypass := false, fp := st.fp + 1, sp := 0 },
      rowEvs ++ [ScanEv.outerSet, ScanEv.innerSet])
  else if st.finalBypass || !cfg.bypassEnabled then
    ({ st with doBypass := false, scanning := false }, rowEvs)
  else
    ({ st with doBypass := true, finalBypass := true, sp := 0 },
      rowEvs ++ [ScanEv.innerSet])

/-- State set up by Ui.runScan before the timer starts: with bypass enabled
the first classifier is not advanced (its point stays -1) and the first
inner sweep runs with doBypass set; otherwise firstClass.next() runs once.
The second classifier is advanced to its first point in both cases. -/
def initState (cfg : ScanConfig) : ScanState :=
  { fp := if cfg.bypassEnabled then -1 else 0
    sp := 0
    doBypass := cfg.bypassEnabled
    finalBypass := false
    scanning := true }

/-- Setpoint commands issued before the timer loop: one per Cambustion
classifier constructor (CambustionClass.__init__ ends with set(start)), then
firstClass.next() when bypass is disabled, then secondClass.next(). -/
def initEvents (cfg : ScanConfig) (outerCtorSet innerCtorSet : Bool) : List ScanEv :=
  (if outerCtorSet then [ScanEv.outerSet] else []) ++
    (if innerCtorSet then [ScanEv.innerSet] else []) ++
    (if cfg.bypassEnabled then [] else [ScanEv.outerSet]) ++
    [ScanEv.innerSet]

/-- Events of fuel consecutive timer ticks; a tick on a state whose scan has
ended produces nothing (Ui.check is not re-armed after endScan). -/
def runTicks (cfg : ScanConfig) : ℕ → ScanState → List ScanEv
  | 0, _ => []
  | fuel + 1, st =>
    if st.scanning then (uiNext cfg st).2 ++ runTicks cfg fuel (uiNext cfg st).1 else []

/-- State after fuel timer ticks. -/
def stepTicks (cfg : ScanConfig) : ℕ → ScanState → ScanState
  | 0, st => st
  | fuel + 1, st => if st.scanning then stepTicks cfg fuel (uiNext cfg st).1 else st

/-- Full event trace of one scan. -/
def scanTrace (cfg : ScanConfig) (outerCtorSet innerCtorSet : Bool) (fuel : ℕ) :
    List ScanEv :=
  initEvents cfg outerCtorSet innerCtorSet ++ runTicks cfg fuel (initState cfg)

/-- The committed rows of a trace, in order. -/
def rowsOf (evs : List ScanEv) : List (RowTag × ℕ) :=
  evs.filterMap (fun e =>
    match e with
    | ScanEv.row t i => some (t, i)
    | _ => none)

/-- The rows of one full inner sweep carrying tag t. -/
def sweepRows (t : RowTag) (m : ℕ) : List (RowTag × ℕ) :=
  (List.range m).map (fun k => (t, k))

/-- Device handles owned by the scan. -/
inductive Device
  | counter
  | firstClassifier
  | secondClassifier
deriving DecidableEq, Repr

/-- Release order of Ui.endScan in tandem.py: del firstClass, del
secondClass, del cpc. -/
def endScanReleaseOrder : List Device :=
  [Device.firstClassifier, Device.secondClassifier, Device.counter]

/-- The averaging loop of Ui.plotIt: at each of the ave sub-intervals the
cancellation flag is consulted (if not isScanning: return, before the row is
committed); cancelled i is true when the flag is observed raised in
sub-interval i; otherwise one counter sample is accumulated. -/
def averagingRowAux (cancelled : ℕ → Bool) (samples : ℕ → ℚ) : ℕ → ℕ → ℚ → Option ℚ
  | 0, _, acc => some acc
  | k + 1, i, acc =>
    if cancelled i then none
    else averagingRowAux cancelled samples k (i + 1) (acc + samples i)

/-- Row value produced by the averaging loop of Ui.plotIt (conc /= ave at the
end); none when the loop returned early on cancellation, so no row is
committed to the file. -/
def averagingRow (ave : ℕ) (cancelled : ℕ → Bool) (samples : ℕ → ℚ) : Option ℚ :=
  (averagingRowAux cancelled samples ave 0 0).map (fun c => c / (ave : ℚ))

end Tandem

namespace Tandem

/-- C1: for a sweep axis built from (start, end, perdec) with perdec > 0 and
end > start > 0, the point count is
floor(perdec*(log10(end)-log10(start)) + 0.00001) + 1, setpoint p equals
start*(10^(1/perdec))^p, setpoint 0 equals start, and the setpoints are
strictly increasing. -/
theorem sweep_axis_spec (start stop perdec : ℝ)
    (hs : 0 < start) (_hse : start < stop) (hp : 0 < perdec) :
    sweepPoints start stop perdec =
        ⌊perdec * (Real.logb 10 stop - Real.logb 10 start) + 0.00001⌋ + 1 ∧
      getPoint start perdec 0 = start ∧
      (∀ p : ℕ, getPoint start perdec p = start * ((10 : ℝ) ^ ((1 : ℝ) / perdec)) ^ p) ∧
      ∀ p q : ℕ, p < q → getPoint start perdec p < getPoint start perdec q := by
  have hbase : 1 < (10 : ℝ) ^ ((1 : ℝ) / perdec) := by
    rw [Real.one_lt_rpow_iff_of_pos (by norm_num)]
    exact Or.inl ⟨by norm_num, by positivity⟩
  refine ⟨rfl, ?_, fun p => rfl, ?_⟩
  · simp [getPoint]
  · intro p q hpq
    unfold getPoint
    exact mul_lt_mul_of_pos_left (pow_lt_pow_right₀ hbase hpq) hs

/-- Witness for sweep_axis_spec at start 1, end 10, perdec 1. -/
theorem sweep_axis_spec_witness :
    (0 : ℝ) < 1 ∧ (1 : ℝ) < 10 ∧ (0 : ℝ) < 1 ∧
      getPoint 1 1 0 = 1 ∧ ∀ p q : ℕ, p < q → getPoint 1 1 p < getPoint 1 1 q := by
  refine ⟨by norm_num, by norm_num, by norm_num, ?_, ?_⟩
  · exact (sweep_axis_spec 1 10 1 (by norm_num) (by norm_num) (by norm_num)).2.1
  · exact (sweep_axis_spec 1 10 1 (by norm_num) (by norm_num) (by norm_num)).2.2.2

/-- C2: TSI3082 stepped-mode isReady is true iff the relative sheath-flow
error and the relative voltage error are both strictly below the tolerance
0.05, and it is false when either gating channel sits exactly at the
tolerance. -/
theorem tsi3082_isReady_spec (ss sm vs vm : ℚ) (hss : 0 < ss) (hvs : 0 < vs) :
    (TSI3082.isReady ss sm vs vm = true ↔
        |ss - sm| / ss < tolerance ∧ |vs - vm| / vs < tolerance) ∧
      (|ss - sm| / ss = tolerance → TSI3082.isReady ss sm vs vm = false) ∧
      (|vs - vm| / vs = tolerance → TSI3082.isReady ss sm vs vm = false) := by
  have h1 : |(ss - sm) / ss| = |ss - sm| / ss := by rw [abs_div, abs_of_pos hss]
  have h2 : |(vs - vm) / vs| = |vs - vm| / vs := by rw [abs_div, abs_of_pos hvs]
  refine ⟨by simp [TSI3082.isReady, h1, h2], ?_, ?_⟩
  · intro h
    simp [TSI3082.isReady, h1, h2, h]
  · intro h
    simp [TSI3082.isReady, h1, h2, h]

/-- Witness for tsi3082_isReady_spec at setpoints and feedbacks all 1. -/
theorem tsi3082_isReady_spec_witness :
    (0 : ℚ) < 1 ∧
      (TSI3082.isReady 1 1 1 1 = true ↔
        |(1 : ℚ) - 1| / 1 < tolerance ∧ |(1 : ℚ) - 1| / 1 < tolerance) :=
  ⟨by norm_num, (tsi3082_isReady_spec 1 1 1 1 (by norm_num) (by norm_num)).1⟩

/-- C5: VarDiameter computes dmStar = ((m*1e-18)/K)^(1/D)*1e9 nm and the
bounds (dmStar^f_lower, dmStar^f_upper); the defaults are f_lower = 0.85 and
f_upper = 1.1; the water preset (K = 523.6, D = 3) with mass 523.6 fg yields
dmStar = 1000 nm; and for every dmStar > 1 the computed start is strictly
below the computed end at the default exponents. -/
theorem varDiameter_spec :
    (∀ mStar K Dm fLower fUpper : ℝ,
        VarDiameter K Dm fLower fUpper mStar =
          (dmStar mStar K Dm ^ fLower, dmStar mStar K Dm ^ fUpper)) ∧
      fLowerOf none = 0.85 ∧ fUpperOf none = 1.1 ∧
      dmStar 523.6 waterPreset.1 waterPreset.2 = 1000 ∧
      ∀ d : ℝ, 1 < d → d ^ fLowerOf none < d ^ fUpperOf none := by
  refine ⟨fun _ _ _ _ _ => rfl, rfl, rfl, ?_, ?_⟩
  · show ((523.6 * (10 : ℝ) ^ (-18 : ℤ)) / 523.6) ^ ((1 : ℝ) / 3) * (10 : ℝ) ^ (9 : ℕ) = 1000
    rw [mul_div_cancel_left₀ _ (by norm_num : (523.6 : ℝ) ≠ 0)]
    have h1 : ((10 : ℝ) ^ (-18 : ℤ) : ℝ) = (10 : ℝ) ^ (-18 : ℝ) := by
      rw [← Real.rpow_intCast]
      norm_num
    rw [h1, ← Real.rpow_natCast 10 9, ← Real.rpow_mul (by norm_num : (0:ℝ) ≤ 10),
      ← Real.rpow_add (by norm_num : (0:ℝ) < 10)]
    push_cast
    rw [show ((-18 : ℝ) * ((1:ℝ)/3) + 9 : ℝ) = 3 by norm_num]
    rw [show (1000 : ℝ) = 10 ^ (3:ℕ) by norm_num, ← Real.rpow_natCast 10 3]
    norm_num
  · intro d hd
    show d ^ (0.85 : ℝ) < d ^ (1.1 : ℝ)
    rw [Real.rpow_lt_rpow_left_iff hd]
    norm_num

/-- Witness for varDiameter_spec: at dmStar 2 the default bounds are ordered. -/
theorem varDiameter_spec_witness :
    (1 : ℝ) < 2 ∧ (2 : ℝ) ^ fLowerOf none < (2 : ℝ) ^ fUpperOf none :=
  ⟨by norm_num, varDiameter_spec.2.2.2.2 2 (by norm_num)⟩

/-- C10: Cambustion sendAndCheck reports success iff the response begins with
OK; TSI DMA sendAndCheck reports success iff the response does not begin with
ERROR; in particular the empty response produced after a transport timeout or
disconnection is reported as success by TSI DMA devices. -/
theorem sendAndCheck_spec :
    (∀ rsp : List Char, CambustionClass.sendAndCheck rsp = true ↔ okStr <+: rsp) ∧
      (∀ rsp : List Char, TSIDma.sendAndCheck rsp = true ↔ ¬ errorStr <+: rsp) ∧
      TSIDma.sendAndCheck [] = true := by
  have key : ∀ v s : List Char, matchStr s v = true ↔ v <+: s := by
    intro v s
    rw [matchStr, beq_iff_eq, List.prefix_iff_eq_take]
    exact ⟨fun h => h.symm, fun h => h.symm⟩
  refine ⟨fun rsp => key okStr rsp, fun rsp => ?_, by decide⟩
  rw [TSIDma.sendAndCheck, Bool.not_eq_true']
  rw [← Bool.not_eq_true (matchStr rsp errorStr)]
  exact not_congr (key errorStr rsp)

/-- Tally after a sequence of monitor calls: one per accumulated response. -/
theorem monitor_foldl_tally (rs : List (List ℚ)) :
    ∀ c : StepClassifier, (rs.foldl StepClassifier.monitor c).tally = c.tally + rs.length := by
  induction rs with
  | nil => intro c; simp
  | cons r rest ih =>
    intro c
    rw [List.foldl_cons, ih]
    simp [StepClassifier.monitor]
    omega

/-- One monitor call keeps the channel count when the response is at least as
long as the accumulator list. -/
theorem monitor_values_length (c : StepClassifier) (r : List ℚ)
    (h : c.values.length ≤ r.length) :
    (c.monitor r).values.length = c.values.length := by
  simp [StepClassifier.monitor]
  omega

/-- Channel count after a sequence of monitor calls. -/
theorem monitor_foldl_length (rs : List (List ℚ)) :
    ∀ c : StepClassifier, (∀ r ∈ rs, c.values.length ≤ r.length) →
      (rs.foldl StepClassifier.monitor c).values.length = c.values.length := by
  induction rs with
  | nil => intro c _; rfl
  | cons r rest ih =>
    intro c hlen
    have hr : c.values.length ≤ r.length := hlen r (by simp)
    have h1 : (c.monitor r).values.length = c.values.length := monitor_values_length c r hr
    rw [List.foldl_cons, ih (c.monitor r)]
    · exact h1
    · intro r' hr'
      rw [h1]
      exact hlen r' (by simp [hr'])

/-- Entrywise sum of a zip, read through getD. -/
theorem zipAdd_getD (a : List ℚ) :
    ∀ (b : List ℚ) (j : ℕ), j < a.length → a.length ≤ b.length →
      ((a.zip b).map (fun p => p.1 + p.2)).getD j 0 = a.getD j 0 + b.getD j 0 := by
  induction a with
  | nil =>
    intro b j hj _
    simp at hj
  | cons x xs ih =>
    intro b j hj hab
    cases b with
    | nil => simp at hab
    | cons y ys =>
      cases j with
      | zero => simp
      | succ k =>
        simp only [List.zip_cons_cons, List.map_cons, List.getD_cons_succ]
        exact ih ys k (by simpa using hj) (by simpa using hab)

/-- Channel j after a sequence of monitor calls: the starting sum plus the sum
of the j-th entry of each response. -/
theorem monitor_foldl_values (rs : List (List ℚ)) :
    ∀ (c : StepClassifier) (j : ℕ), j < c.values.length →
      (∀ r ∈ rs, c.values.length ≤ r.length) →
      (rs.foldl StepClassifier.monitor c).values.getD j 0 =
        c.values.getD j 0 + (rs.map (fun r => r.getD j 0)).sum := by
  induction rs with
  | nil =>
    intro c j _ _
    simp
  | cons r rest ih =>
    intro c j hj hlen
    have hr : c.values.length ≤ r.length := hlen r (by simp)
    have h1 : (c.monitor r).values.length = c.values.length := monitor_values_length c r hr
    have hstep : (c.monitor r).values.getD j 0 = c.values.getD j 0 + r.getD j 0 := by
      simp only [StepClassifier.monitor]
      exact zipAdd_getD c.values r j hj hr
    rw [List.foldl_cons, ih (c.monitor r) j (by rw [h1]; exact hj)
      (fun r' hr' => by rw [h1]; exact hlen r' (by simp [hr'])), hstep,
      List.map_cons, List.sum_cons]
    ring

/-- getD through a map that divides each entry. -/
theorem getD_map_div (l : List ℚ) (t : ℚ) (j : ℕ) (hj : j < l.length) :
    (l.map (fun v => v / t)).getD j 0 = l.getD j 0 / t := by
  rw [List.getD_eq_getElem?_getD, List.getD_eq_getElem?_getD, List.getElem?_map,
    List.getElem?_eq_getElem hj]
  simp

/-- C3 (amended): when the classifier still has points to come, next
increments the index, issues the set-setpoint command for the new value
(acknowledged by the device with ack) and zeroes the per-point accumulators;
when the index is already at the last sweep point, next does not return
false with the state unchanged — it raises an index error (none) after
already clearing the accumulators and incrementing the index, which is why
the orchestrator only calls next after checking moreToCome. -/
theorem classifier_next_spec :
    (∀ (c : StepClassifier) (ack : Bool), c.moreToCome = false → c.X.length = c.points →
        (c.next ack).2 = none ∧ (c.next ack).1.point = c.point + 1 ∧
          (c.next ack).1.tally = 0 ∧
          (c.next ack).1.values = c.values.map (fun _ => 0)) ∧
      (∀ (c : StepClassifier) (ack : Bool), c.moreToCome = true → c.X.length = c.points →
        -1 ≤ c.point →
        (c.next ack).2 = some ack ∧ (c.next ack).1.point = c.point + 1 ∧
          (c.next ack).1.tally = 0 ∧
          (c.next ack).1.values = c.values.map (fun _ => 0) ∧
          (c.next ack).1.x = c.X.getD (c.point + 1).toNat 0) := by
  constructor
  · intro c ack hmt hlen
    have hnot : ¬ c.point + 1 < (c.points : ℤ) := by
      simpa [StepClassifier.moreToCome] using hmt
    have hcond : ¬ (0 ≤ c.point + 1 ∧ (c.point + 1).toNat < c.X.length) := by
      rw [hlen]
      omega
    simp [StepClassifier.next, hcond]
  · intro c ack hmt hlen hge
    have hlt : c.point + 1 < (c.points : ℤ) := by
      simpa [StepClassifier.moreToCome] using hmt
    have hcond : 0 ≤ c.point + 1 ∧ (c.point + 1).toNat < c.X.length := by
      rw [hlen]
      omega
    simp [StepClassifier.next, hcond]

/-- A classifier sitting at the last point of its sweep, with a nonzero
accumulator state. -/
def lastPointClassifier : StepClassifier :=
  { points := 1, X := [2], point := 0, x := 2, values := [3], tally := 2 }

/-- A classifier not yet started (point = -1) with two points to sweep. -/
def freshClassifier : StepClassifier :=
  { points := 2, X := [1, 3], point := -1, x := 0, values := [7], tally := 5 }

/-- C3 counterexample: at the last sweep point next does not return false (it
raises, modelled none) and does not leave the classifier state unchanged
(the index is incremented and the accumulators are cleared first). -/
theorem classifier_next_cex :
    (lastPointClassifier.next false).2 = none ∧
      (lastPointClassifier.next false).1 ≠ lastPointClassifier := by
  decide

/-- Witness for classifier_next_spec on concrete classifiers on both sides of
the boundary. -/
theorem classifier_next_spec_witness :
    lastPointClassifier.moreToCome = false ∧ freshClassifier.moreToCome = true ∧
      (lastPointClassifier.next true).2 = none ∧
      (freshClassifier.next true).2 = some true := by
  refine ⟨by decide, by decide, ?_, ?_⟩
  · exact (classifier_next_spec.1 lastPointClassifier true (by decide) (by decide)).1
  · exact (classifier_next_spec.2 freshClassifier true (by decide) (by decide) (by decide)).1

/-- C4: after accumulating the N = rs.length >= 1 responses rs through
monitor into a classifier whose accumulators start zeroed, getFileData
reports channel j as (sum of the j-th entries of the responses)/N; with zero
accumulated samples getFileData signals the error (none, the raised
ZeroDivisionError), never a computed quotient. -/
theorem averaging_spec :
    (∀ c : StepClassifier, c.tally = 0 → c.getFileData = none) ∧
      (∀ (c : StepClassifier) (rs : List (List ℚ)) (j : ℕ),
        c.tally = 0 → j < c.values.length → c.values.getD j 0 = 0 →
        (∀ r ∈ rs, c.values.length ≤ r.length) → rs ≠ [] →
        (StepClassifier.getFileData (rs.foldl StepClassifier.monitor c)).map
            (fun out => out.2.getD j 0) =
          some ((rs.map (fun r => r.getD j 0)).sum / (rs.length : ℚ))) := by
  constructor
  · intro c h
    simp [StepClassifier.getFileData, h]
  · intro c rs j htally hj hzero hlen hne
    have ht : (rs.foldl StepClassifier.monitor c).tally = rs.length := by
      rw [monitor_foldl_tally, htally]
      omega
    have htne : (rs.foldl StepClassifier.monitor c).tally ≠ 0 := by
      rw [ht]
      exact fun h0 => hne (List.length_eq_zero.mp h0)
    have hlenf : (rs.foldl StepClassifier.monitor c).values.length = c.values.length :=
      monitor_foldl_length rs c hlen
    rw [StepClassifier.getFileData, if_neg htne]
    simp only [Option.map_some']
    congr 1
    rw [getD_map_div _ _ j (by rw [hlenf]; exact hj),
      monitor_foldl_values rs c j hj hlen, hzero, zero_add, ht]

/-- A classifier with freshly reset accumulators, one feedback channel. -/
def resetClassifier : StepClassifier :=
  { points := 1, X := [5], point := 0, x := 5, values := [0], tally := 0 }

/-- Witness for averaging_spec: samples 1 and 3 average to 2, and the reset
state itself reports the zero-sample error. -/
theorem averaging_spec_witness :
    resetClassifier.tally = 0 ∧ resetClassifier.getFileData = none ∧
      (StepClassifier.getFileData
          (([[(1 : ℚ)], [3]] : List (List ℚ)).foldl StepClassifier.monitor resetClassifier)).map
          (fun out => out.2.getD 0 0) =
        some ((([[(1 : ℚ)], [3]] : List (List ℚ)).map (fun r => r.getD 0 0)).sum /
          ((([[(1 : ℚ)], [3]] : List (List ℚ)).length : ℚ))) := by
  refine ⟨rfl, ?_, ?_⟩
  · exact averaging_spec.1 resetClassifier rfl
  · exact averaging_spec.2 resetClassifier [[1], [3]] 0 rfl (by decide) (by decide)
      (by decide) (by decide)

/-- C6 (amended): getRsp accumulates read chunks until the terminator
sequence is seen or the reads are exhausted (timeout). A read exception
yields the empty string and clears the connected flag. When the accumulated
text contains the terminator, the text before the terminator is returned
(with every greater-than sign deleted) and the link stays connected. On a
timeout with no terminator the call returns the accumulated text minus its
final character (greater-than signs deleted) and leaves the link connected —
it does not return empty and does not disconnect. -/
theorem getRsp_spec :
    (∀ (rest : List (Option (List Char))) (chunks : List Char),
        pyFind chunks rspTerm < 0 → getRspAux (none :: rest) chunks = ([], false)) ∧
      (∀ (rest : List (Option (List Char))) (c chunks : List Char),
        pyFind chunks rspTerm < 0 →
        getRspAux (some c :: rest) chunks = getRspAux rest (chunks ++ c)) ∧
      (∀ (reads : List (Option (List Char))) (chunks : List Char),
        0 ≤ pyFind chunks rspTerm →
        getRspAux reads chunks = (finishRsp chunks, true)) ∧
      (∀ (chunks : List Char) (k : ℕ), pyFind chunks rspTerm = (k : ℤ) →
        finishRsp chunks = (chunks.take k).filter (fun c => c != '>')) ∧
      (∀ chunks : List Char, pyFind chunks rspTerm < 0 →
        getRspAux [] chunks =
          ((chunks.take (chunks.length - 1)).filter (fun c => c != '>'), true)) := by
  have hfin : ∀ chunks : List Char, pyFind chunks rspTerm < 0 →
      finishRsp chunks = (chunks.take (chunks.length - 1)).filter (fun c => c != '>') := by
    intro chunks h
    have hneg : pyFind chunks rspTerm = -1 := by
      cases hfs : findSub rspTerm chunks with
      | none => simp [pyFind, hfs]
      | some k =>
        exfalso
        simp [pyFind, hfs] at h
        omega
    rw [finishRsp, hneg, pySlice, if_pos (by norm_num)]
    congr 2
    omega
  refine ⟨?_, ?_, ?_, ?_, ?_⟩
  · intro rest chunks h
    simp [getRspAux, not_le.mpr h]
  · intro rest c chunks h
    simp [getRspAux, not_le.mpr h]
  · intro reads chunks h
    cases reads with
    | nil => rfl
    | cons r rest =>
      cases r with
      | none => rw [getRspAux, if_pos h]
      | some c => rw [getRspAux, if_pos h]
  · intro chunks k hk
    rw [finishRsp, hk, pySlice, if_neg (by omega)]
    simp
  · intro chunks h
    rw [getRspAux, hfin chunks h]

/-- C6 counterexample: a single chunk ab arrives and the timeout expires with
no terminator seen: getRsp returns the text a (accumulated text minus its
final character) with the link still connected — not the empty string, and
the state is not flipped to Disconnected. -/
theorem getRsp_cex :
    getRsp [some ['a', 'b']] = (['a'], true) ∧
      getRsp [some ['a', 'b']] ≠ ([], false) := by
  decide

/-- Witness for getRsp_spec: an exception on a read with no terminator seen
returns empty and disconnects. -/
theorem getRsp_spec_witness :
    pyFind ['a'] rspTerm < 0 ∧ getRspAux [none] ['a'] = ([], false) :=
  ⟨by decide, getRsp_spec.1 [] ['a'] (by decide)⟩

end Tandem


namespace Tandem

/-- Ticks on a finished scan produce no events. -/
theorem runTicks_finished (cfg : ScanConfig) (fuel : ℕ) (st : ScanState)
    (h : st.scanning = false) : runTicks cfg fuel st = [] := by
  cases fuel with
  | zero => rfl
  | succ f => simp [runTicks, h]

/-- Ticks on a finished scan do not change the state. -/
theorem stepTicks_finished (cfg : ScanConfig) (fuel : ℕ) (st : ScanState)
    (h : st.scanning = false) : stepTicks cfg fuel st = st := by
  cases fuel with
  | zero => rfl
  | succ f => simp [stepTicks, h]

/-- Tick traces concatenate across a fuel split. -/
theorem runTicks_add (cfg : ScanConfig) (a : ℕ) :
    ∀ (b : ℕ) (st : ScanState),
      runTicks cfg (a + b) st =
        runTicks cfg a st ++ runTicks cfg b (stepTicks cfg a st) := by
  induction a with
  | zero =>
    intro b st
    simp [runTicks, stepTicks]
  | succ a ih =>
    intro b st
    rw [show a + 1 + b = (a + b) + 1 by omega]
    by_cases h : st.scanning
    · simp only [runTicks, stepTicks, h, if_true]
      rw [ih b (uiNext cfg st).1, List.append_assoc]
    · have h' : st.scanning = false := by simpa using h
      simp [runTicks, stepTicks, h', runTicks_finished cfg b st h']

/-- Tick states compose across a fuel split. -/
theorem stepTicks_add (cfg : ScanConfig) (a : ℕ) :
    ∀ (b : ℕ) (st : ScanState),
      stepTicks cfg (a + b) st = stepTicks cfg b (stepTicks cfg a st) := by
  induction a with
  | zero =>
    intro b st
    simp [stepTicks]
  | succ a ih =>
    intro b st
    rw [show a + 1 + b = (a + b) + 1 by omega]
    by_cases h : st.scanning
    · simp only [stepTicks, h, if_true]
      exact ih b (uiNext cfg st).1
    · have h' : st.scanning = false := by simpa using h
      simp [stepTicks, h', stepTicks_finished cfg b st h']

/-- Events of one mid-sweep tick at inner index k. -/
def midEvs (cfg : ScanConfig) (d : Bool) (fp : ℤ) (k : ℕ) : List ScanEv :=
  (List.replicate cfg.ave ScanEv.concSample ++ [ScanEv.row (rowTagOf d fp) k]) ++
    [ScanEv.innerSet]

/-- Events of j consecutive mid-sweep ticks starting at inner index s. -/
def midRun (cfg : ScanConfig) (d : Bool) (fp : ℤ) : ℕ → ℕ → List ScanEv
  | _, 0 => []
  | s, j + 1 => midEvs cfg d fp s ++ midRun cfg d fp (s + 1) j

/-- Evaluation of uiNext on a mid-sweep state. -/
theorem uiNext_mid (cfg : ScanConfig) (d fb : Bool) (fp : ℤ) (s : ℕ)
    (h : s + 1 < cfg.mInner) :
    uiNext cfg ⟨fp, (s : ℤ), d, fb, true⟩ =
      (⟨fp, (s : ℤ) + 1, d, fb, true⟩, midEvs cfg d fp s) := by
  simp only [uiNext, midEvs]
  rw [if_pos (by omega)]
  simp

/-- Evaluation of uiNext at the end of an inner sweep, outer points left:
clear doBypass, advance the outer classifier, restart the inner sweep. -/
theorem uiNext_endAdvance (cfg : ScanConfig) (d fb : Bool) (fp : ℤ) (k : ℕ)
    (hm : cfg.mInner = k + 1) (h : fp + 1 < (cfg.nOuter : ℤ)) :
    uiNext cfg ⟨fp, (k : ℤ), d, fb, true⟩ =
      (⟨fp + 1, 0, false, fb, true⟩,
        (List.replicate cfg.ave ScanEv.concSample ++ [ScanEv.row (rowTagOf d fp) k]) ++
          [ScanEv.outerSet, ScanEv.innerSet]) := by
  simp only [uiNext]
  rw [if_neg (by rw [hm]; push_cast; omega), if_pos h]
  simp

/-- Evaluation of uiNext at the end of the last inner sweep when no further
bypass pass is owed: the scan ends. -/
theorem uiNext_endStop (cfg : ScanConfig) (d fb : Bool) (fp : ℤ) (k : ℕ)
    (hm : cfg.mInner = k + 1) (h : ¬ fp + 1 < (cfg.nOuter : ℤ))
    (hb : fb = true ∨ cfg.bypassEnabled = false) :
    uiNext cfg ⟨fp, (k : ℤ), d, fb, true⟩ =
      (⟨fp, (k : ℤ), false, fb, false⟩,
        List.replicate cfg.ave ScanEv.concSample ++ [ScanEv.row (rowTagOf d fp) k]) := by
  simp only [uiNext]
  rw [if_neg (by rw [hm]; push_cast; omega), if_neg h,
    if_pos (by rcases hb with hb | hb <;> simp [hb])]
  simp

/-- Evaluation of uiNext at the end of the last inner sweep when an enabled
bypass has not yet run its final pass: doBypass and finalBypass are set and
the inner sweep restarts. -/
theorem uiNext_endFinalBypass (cfg : ScanConfig) (d : Bool) (fp : ℤ) (k : ℕ)
    (hm : cfg.mInner = k + 1) (h : ¬ fp + 1 < (cfg.nOuter : ℤ))
    (hb : cfg.bypassEnabled = true) :
    uiNext cfg ⟨fp, (k : ℤ), d, false, true⟩ =
      (⟨fp, 0, true, true, true⟩,
        (List.replicate cfg.ave ScanEv.concSample ++ [ScanEv.row (rowTagOf d fp) k]) ++
          [ScanEv.innerSet]) := by
  simp only [uiNext]
  rw [if_neg (by rw [hm]; push_cast; omega), if_neg h, if_neg (by simp [hb])]
  simp

/-- Mid-sweep ticks: starting at inner index s with s + j + 1 = mInner, j
ticks step the second classifier j times, emitting one row per index. -/
theorem runTicks_mid (cfg : ScanConfig) (d fb : Bool) (fp : ℤ) :
    ∀ (j s : ℕ), s + j + 1 = cfg.mInner →
      runTicks cfg j ⟨fp, (s : ℤ), d, fb, true⟩ = midRun cfg d fp s j ∧
        stepTicks cfg j ⟨fp, (s : ℤ), d, fb, true⟩ =
          ⟨fp, ((s + j : ℕ) : ℤ), d, fb, true⟩ := by
  intro j
  induction j with
  | zero =>
    intro s hs
    exact ⟨rfl, by simp [stepTicks]⟩
  | succ j ih =>
    intro s hs
    have hlt : s + 1 < cfg.mInner := by omega
    have hstep := uiNext_mid cfg d fb fp s hlt
    have hcast : ((s : ℤ) + 1) = ((s + 1 : ℕ) : ℤ) := by push_cast; omega
    obtain ⟨ihr, ihs⟩ := ih (s + 1) (by omega)
    constructor
    · simp only [runTicks, if_true, hstep]
      rw [hcast, ihr]
      rfl
    · simp only [stepTicks, if_true, hstep]
      rw [hcast, ihs]
      congr 1
      omega

/-- One full inner sweep from a sweep-start state: mInner - 1 mid ticks and
then the end-of-sweep tick, whatever transition uiNext takes there. -/
theorem runTicks_sweep (cfg : ScanConfig) (d fb : Bool) (fp : ℤ) (k f : ℕ)
    (hm : cfg.mInner = k + 1) :
    runTicks cfg ((k + 1) + f) ⟨fp, 0, d, fb, true⟩ =
      midRun cfg d fp 0 k ++ ((uiNext cfg ⟨fp, (k : ℤ), d, fb, true⟩).2 ++
        runTicks cfg f (uiNext cfg ⟨fp, (k : ℤ), d, fb, true⟩).1) ∧
      stepTicks cfg ((k + 1) + f) ⟨fp, 0, d, fb, true⟩ =
        stepTicks cfg f (uiNext cfg ⟨fp, (k : ℤ), d, fb, true⟩).1 := by
  obtain ⟨hmr, hms⟩ := runTicks_mid cfg d fb fp k 0 (by omega)
  have h0 : ((0 : ℕ) : ℤ) = (0 : ℤ) := rfl
  have hk : ((0 + k : ℕ) : ℤ) = (k : ℤ) := by push_cast; omega
  constructor
  · rw [show (k + 1) + f = k + (1 + f) by omega, runTicks_add]
    rw [show ((⟨fp, 0, d, fb, true⟩ : ScanState)) = ⟨fp, ((0 : ℕ) : ℤ), d, fb, true⟩ by rfl]
    rw [hmr, hms, hk]
    congr 1
    rw [show 1 + f = f + 1 by omega]
    simp only [runTicks]
    simp
  · rw [show (k + 1) + f = k + (1 + f) by omega, stepTicks_add]
    rw [show ((⟨fp, 0, d, fb, true⟩ : ScanState)) = ⟨fp, ((0 : ℕ) : ℤ), d, fb, true⟩ by rfl]
    rw [hms, hk]
    rw [show 1 + f = f + 1 by omega]
    simp only [stepTicks]
    simp

end Tandem

namespace Tandem

/-- Events of r consecutive classified sweeps starting at outer index fpn,
each over k + 1 inner points and each ending with the outer advance. -/
def classifiedRun (cfg : ScanConfig) (k : ℕ) : ℕ → ℕ → List ScanEv
  | _, 0 => []
  | fpn, r + 1 =>
    (midRun cfg false (fpn : ℤ) 0 k ++
      ((List.replicate cfg.ave ScanEv.concSample ++
          [ScanEv.row (rowTagOf false (fpn : ℤ)) k]) ++
        [ScanEv.outerSet, ScanEv.innerSet])) ++
      classifiedRun cfg k (fpn + 1) r

/-- The classified phase: r sweeps each ending with an outer advance, run
from a sweep-start state with doBypass and finalBypass clear. -/
theorem runTicks_classified (cfg : ScanConfig) (k : ℕ) (hm : cfg.mInner = k + 1) :
    ∀ (r fpn f : ℕ), fpn + r + 1 ≤ cfg.nOuter →
      runTicks cfg (r * (k + 1) + f) ⟨(fpn : ℤ), 0, false, false, true⟩ =
        classifiedRun cfg k fpn r ++
          runTicks cfg f ⟨((fpn + r : ℕ) : ℤ), 0, false, false, true⟩ ∧
        stepTicks cfg (r * (k + 1) + f) ⟨(fpn : ℤ), 0, false, false, true⟩ =
          stepTicks cfg f ⟨((fpn + r : ℕ) : ℤ), 0, false, false, true⟩ := by
  intro r
  induction r with
  | zero =>
    intro fpn f _
    constructor
    · simp [classifiedRun]
    · simp
  | succ r ih =>
    intro fpn f hle
    have hadv : (fpn : ℤ) + 1 < (cfg.nOuter : ℤ) := by omega
    have hui := uiNext_endAdvance cfg false false (fpn : ℤ) k hm hadv
    have hfuel : (r + 1) * (k + 1) + f = (k + 1) + (r * (k + 1) + f) := by ring
    have hcast : ((fpn : ℤ) + 1) = ((fpn + 1 : ℕ) : ℤ) := by push_cast; omega
    obtain ⟨ihr, ihs⟩ := ih (fpn + 1) f (by omega)
    obtain ⟨swr, sws⟩ :=
      runTicks_sweep cfg false false (fpn : ℤ) k (r * (k + 1) + f) hm
    constructor
    · rw [hfuel, swr, hui]
      simp only []
      rw [hcast, ihr, show fpn + 1 + r = fpn + (r + 1) by omega]
      simp [classifiedRun, List.append_assoc]
    · rw [hfuel, sws, hui]
      simp only []
      rw [hcast, ihs, show fpn + 1 + r = fpn + (r + 1) by omega]

end Tandem

namespace Tandem

/-- rowsOf distributes over concatenation. -/
theorem rowsOf_append (l₁ l₂ : List ScanEv) :
    rowsOf (l₁ ++ l₂) = rowsOf l₁ ++ rowsOf l₂ := by
  simp [rowsOf]

/-- Concentration samples contribute no rows. -/
theorem rowsOf_replicate_conc (a : ℕ) :
    rowsOf (List.replicate a ScanEv.concSample) = [] := by
  induction a with
  | zero => rfl
  | succ a ih => simp [rowsOf, List.replicate_succ]

/-- Rows of one mid-sweep tick. -/
theorem rowsOf_midEvs (cfg : ScanConfig) (d : Bool) (fp : ℤ) (k : ℕ) :
    rowsOf (midEvs cfg d fp k) = [(rowTagOf d fp, k)] := by
  simp [midEvs, rowsOf_append, rowsOf_replicate_conc, rowsOf]

/-- Rows of j mid-sweep ticks from inner index s. -/
theorem rowsOf_midRun (cfg : ScanConfig) (d : Bool) (fp : ℤ) :
    ∀ (j s : ℕ), rowsOf (midRun cfg d fp s j) =
      (List.range j).map (fun i => (rowTagOf d fp, s + i)) := by
  intro j
  induction j with
  | zero => intro s; rfl
  | succ j ih =>
    intro s
    rw [midRun, rowsOf_append, rowsOf_midEvs, ih (s + 1), List.range_succ_eq_map]
    simp only [List.map_cons, List.map_map, List.singleton_append, Nat.add_zero]
    congr 1
    apply List.map_congr_left
    intro a _
    simp only [Function.comp_apply, Prod.mk.injEq, true_and]
    omega

/-- The classified tag of a natural outer index. -/
theorem rowTagOf_false_natCast (fpn : ℕ) :
    rowTagOf false ((fpn : ℕ) : ℤ) = RowTag.classified fpn := by
  simp [rowTagOf]

/-- A full sweep of rows, last row peeled off. -/
theorem sweepRows_succ (t : RowTag) (k : ℕ) :
    sweepRows t (k + 1) = (List.range k).map (fun i => (t, i)) ++ [(t, k)] := by
  simp [sweepRows, List.range_succ]

/-- Rows of the classified phase: one full sweep of classified rows per outer
index. -/
theorem rowsOf_classifiedRun (cfg : ScanConfig) (k : ℕ) :
    ∀ (r fpn : ℕ), rowsOf (classifiedRun cfg k fpn r) =
      (List.range r).flatMap
        (fun i => sweepRows (RowTag.classified (fpn + i)) (k + 1)) := by
  intro r
  induction r with
  | zero => intro fpn; rfl
  | succ r ih =>
    intro fpn
    rw [classifiedRun, rowsOf_append, rowsOf_append, rowsOf_midRun, ih (fpn + 1),
      List.range_succ_eq_map, List.flatMap_cons, List.flatMap_map]
    have hrow : rowsOf ((List.replicate cfg.ave ScanEv.concSample ++
        [ScanEv.row (rowTagOf false ((fpn : ℕ) : ℤ)) k]) ++
        [ScanEv.outerSet, ScanEv.innerSet]) = [(rowTagOf false ((fpn : ℕ) : ℤ), k)] := by
      simp [rowsOf_append, rowsOf_replicate_conc, rowsOf]
    have hfun : (fun x => sweepRows (RowTag.classified (fpn + 1 + x)) (k + 1)) =
        (fun x => sweepRows (RowTag.classified (fpn + (x + 1))) (k + 1)) :=
      funext (fun x => by rw [show fpn + 1 + x = fpn + (x + 1) by omega])
    rw [hrow, rowTagOf_false_natCast, hfun]
    simp [sweepRows_succ, List.append_assoc]

end Tandem

namespace Tandem

/-- rowsOf on the small literal event lists of the machine. -/
theorem rowsOf_row (t : RowTag) (i : ℕ) : rowsOf [ScanEv.row t i] = [(t, i)] := rfl

/-- rowsOf of the outer-advance command pair. -/
theorem rowsOf_outerInner : rowsOf [ScanEv.outerSet, ScanEv.innerSet] = [] := rfl

/-- rowsOf of a lone inner set command. -/
theorem rowsOf_inner : rowsOf [ScanEv.innerSet] = [] := rfl

/-- C7: a completed stepped scan with bypass enabled over an outer sweep of
nOuter points and an inner sweep of mInner points commits exactly one
bypass-tagged inner sweep before outer point 0, then the nOuter classified
inner sweeps in order, then exactly one bypass-tagged inner sweep after
outer point nOuter - 1 — two bypass sweeps in total; with bypass disabled it
commits only the nOuter classified inner sweeps and no bypass-tagged row at
all. The fuel argument f covers any extra idle ticks after completion. -/
theorem bypass_sequencing_spec (cfg : ScanConfig) (f : ℕ)
    (hn : 1 ≤ cfg.nOuter) (hm : 1 ≤ cfg.mInner) :
    (cfg.bypassEnabled = true →
        rowsOf (runTicks cfg ((cfg.nOuter + 2) * cfg.mInner + f) (initState cfg)) =
          sweepRows RowTag.bypass cfg.mInner ++
            ((List.range cfg.nOuter).flatMap
                (fun i => sweepRows (RowTag.classified i) cfg.mInner) ++
              sweepRows RowTag.bypass cfg.mInner)) ∧
      (cfg.bypassEnabled = false →
        rowsOf (runTicks cfg (cfg.nOuter * cfg.mInner + f) (initState cfg)) =
          (List.range cfg.nOuter).flatMap
            (fun i => sweepRows (RowTag.classified i) cfg.mInner)) := by
  obtain ⟨k, hk⟩ : ∃ k, cfg.mInner = k + 1 := ⟨cfg.mInner - 1, by omega⟩
  obtain ⟨l, hl⟩ : ∃ l, cfg.nOuter = l + 1 := ⟨cfg.nOuter - 1, by omega⟩
  constructor
  · intro he
    have hinit : initState cfg = ⟨-1, 0, true, false, true⟩ := by
      simp [initState, he]
    have hfuel : (cfg.nOuter + 2) * cfg.mInner + f =
        (k + 1) + (l * (k + 1) + ((k + 1) + ((k + 1) + f))) := by
      rw [hk, hl]
      ring
    rw [hinit, hfuel]
    obtain ⟨swrA, _⟩ :=
      runTicks_sweep cfg true false (-1) k (l * (k + 1) + ((k + 1) + ((k + 1) + f))) hk
    rw [swrA, uiNext_endAdvance cfg true false (-1) k hk (by rw [hl]; omega)]
    simp only []
    rw [show (-1 : ℤ) + 1 = ((0 : ℕ) : ℤ) by omega]
    obtain ⟨phr, _⟩ := runTicks_classified cfg k hk l 0 ((k + 1) + ((k + 1) + f))
      (by omega)
    rw [phr, show ((0 + l : ℕ) : ℤ) = ((l : ℕ) : ℤ) by omega]
    obtain ⟨swrC, _⟩ := runTicks_sweep cfg false false ((l : ℕ) : ℤ) k ((k + 1) + f) hk
    rw [swrC, uiNext_endFinalBypass cfg false ((l : ℕ) : ℤ) k hk (by rw [hl]; omega) he]
    simp only []
    obtain ⟨swrD, _⟩ := runTicks_sweep cfg true true ((l : ℕ) : ℤ) k f hk
    rw [swrD, uiNext_endStop cfg true true ((l : ℕ) : ℤ) k hk (by rw [hl]; omega)
      (Or.inl rfl)]
    simp only []
    rw [runTicks_finished cfg f _ rfl]
    simp only [rowsOf_append, rowsOf_midRun, rowsOf_replicate_conc, rowsOf_row,
      rowsOf_outerInner, rowsOf_inner, List.append_nil, List.nil_append,
      rowsOf_classifiedRun cfg k]
    rw [hk, hl]
    simp [rowTagOf, sweepRows_succ, List.range_succ, List.flatMap_append,
      List.flatMap_cons, List.flatMap_nil, List.append_assoc]
  · intro he
    have hinit : initState cfg = ⟨((0 : ℕ) : ℤ), 0, false, false, true⟩ := by
      simp [initState, he]
    have hfuel : cfg.nOuter * cfg.mInner + f = l * (k + 1) + ((k + 1) + f) := by
      rw [hk, hl]
      ring
    rw [hinit, hfuel]
    obtain ⟨phr, _⟩ := runTicks_classified cfg k hk l 0 ((k + 1) + f) (by omega)
    rw [phr, show ((0 + l : ℕ) : ℤ) = ((l : ℕ) : ℤ) by omega]
    obtain ⟨swrC, _⟩ := runTicks_sweep cfg false false ((l : ℕ) : ℤ) k f hk
    rw [swrC, uiNext_endStop cfg false false ((l : ℕ) : ℤ) k hk (by rw [hl]; omega)
      (Or.inr he)]
    simp only []
    rw [runTicks_finished cfg f _ rfl]
    simp only [rowsOf_append, rowsOf_midRun, rowsOf_replicate_conc, rowsOf_row,
      rowsOf_outerInner, rowsOf_inner, List.append_nil, List.nil_append,
      rowsOf_classifiedRun cfg k]
    rw [hk, hl]
    simp [rowTagOf, sweepRows_succ, List.range_succ, List.flatMap_append,
      List.flatMap_cons, List.flatMap_nil, List.append_assoc]

/-- Witness for bypass_sequencing_spec at a 3-point outer sweep, 2-point
inner sweep, bypass enabled. -/
theorem bypass_sequencing_spec_witness :
    1 ≤ (3 : ℕ) ∧
      rowsOf (runTicks ⟨3, 2, true, 1⟩ ((3 + 2) * 2 + 0) (initState ⟨3, 2, true, 1⟩)) =
        sweepRows RowTag.bypass 2 ++
          ((List.range 3).flatMap (fun i => sweepRows (RowTag.classified i) 2) ++
            sweepRows RowTag.bypass 2) :=
  ⟨by decide, (bypass_sequencing_spec ⟨3, 2, true, 1⟩ 0 (by decide) (by decide)).1 rfl⟩

end Tandem

namespace Tandem

/-- The 2-outer by 3-inner, averaging 1, bypass-disabled configuration. -/
def cfg23 : ScanConfig := { nOuter := 2, mInner := 3, bypassEnabled := false, ave := 1 }

/-- C8 counterexample: with Cambustion classifiers in both positions, each
constructor issues one extra set-setpoint command (set(start) at the end of
CambustionClass.__init__), so the 2 x 3 scan issues 3 outer set-setpoint
commands — not exactly 2 — and 7 inner ones, not 6. -/
theorem scan_counts_cex :
    (scanTrace cfg23 true true 6).count ScanEv.outerSet = 3 ∧
      (scanTrace cfg23 true true 6).count ScanEv.innerSet = 7 ∧
      ¬ (scanTrace cfg23 true true 6).count ScanEv.outerSet = 2 := by
  decide

/-- C8 (amended): apart from the one initialization set-setpoint command a
Cambustion classifier constructor issues (none is issued by TSI stepped
classifier constructors), a scan over a 2-point outer sweep and a 3-point
stepped inner sweep with averaging 1 and bypass disabled issues exactly 2
outer and exactly 6 inner set-setpoint commands, samples the concentration
exactly 6 times, and commits exactly the six classified rows (i, j) with
i < 2, j < 3, each once and in order — a full 2 x 3 result matrix with no
missing entries (and, in the exact arithmetic of the model, no NaN). -/
theorem scan_counts_spec :
    (scanTrace cfg23 false false 6).count ScanEv.outerSet = 2 ∧
      (scanTrace cfg23 false false 6).count ScanEv.innerSet = 6 ∧
      (scanTrace cfg23 false false 6).count ScanEv.concSample = 6 ∧
      rowsOf (scanTrace cfg23 false false 6) =
        [(RowTag.classified 0, 0), (RowTag.classified 0, 1), (RowTag.classified 0, 2),
          (RowTag.classified 1, 0), (RowTag.classified 1, 1), (RowTag.classified 1, 2)] := by
  decide

/-- The averaging loop returns none as soon as a raised cancellation flag is
observed at a sub-interval inside the remaining iterations. -/
theorem averagingRowAux_cancel (cancelled : ℕ → Bool) (samples : ℕ → ℚ) :
    ∀ (k i0 : ℕ) (acc : ℚ), (∃ t, t < k ∧ cancelled (i0 + t) = true) →
      averagingRowAux cancelled samples k i0 acc = none := by
  intro k
  induction k with
  | zero =>
    intro i0 acc h
    obtain ⟨t, ht, _⟩ := h
    omega
  | succ k ih =>
    intro i0 acc h
    obtain ⟨t, ht, hc⟩ := h
    by_cases h0 : cancelled i0
    · simp [averagingRowAux, h0]
    · have hne : t ≠ 0 := by
        intro h'
        rw [h', Nat.add_zero] at hc
        exact h0 hc
      rw [averagingRowAux, if_neg h0]
      exact ih (i0 + 1) (acc + samples i0)
        ⟨t - 1, by omega, by rw [show i0 + 1 + (t - 1) = i0 + t by omega]; exact hc⟩

/-- C9 (amended): when the cancellation flag is observed raised during an
averaging sub-interval, the averaging loop of plotIt aborts and no row is
committed for the in-progress point; a timer tick on a cancelled scan state
performs no further work; and endScan releases the device handles in the
fixed order first classifier, second classifier, then counter — the counter
is released last, not first. -/
theorem cancellation_spec :
    (∀ (ave : ℕ) (cancelled : ℕ → Bool) (samples : ℕ → ℚ) (i : ℕ),
        i < ave → cancelled i = true → averagingRow ave cancelled samples = none) ∧
      (∀ (cfg : ScanConfig) (f : ℕ) (st : ScanState), st.scanning = false →
        runTicks cfg f st = []) ∧
      endScanReleaseOrder =
        [Device.firstClassifier, Device.secondClassifier, Device.counter] := by
  refine ⟨?_, ?_, rfl⟩
  · intro ave cancelled samples i hi hc
    rw [averagingRow, averagingRowAux_cancel cancelled samples ave 0 0
      ⟨i, hi, by rw [Nat.zero_add]; exact hc⟩]
    rfl
  · intro cfg f st h
    exact runTicks_finished cfg f st h

/-- C9 counterexample: the release order of endScan is not counter first —
the counter is deleted last. -/
theorem cancellation_cex :
    endScanReleaseOrder ≠
      [Device.counter, Device.firstClassifier, Device.secondClassifier] := by
  decide

/-- Witness for cancellation_spec: a flag raised in the only sub-interval of
a 1-sample averaging window suppresses the row. -/
theorem cancellation_spec_witness :
    (0 : ℕ) < 1 ∧ averagingRow 1 (fun _ => true) (fun _ => 0) = none :=
  ⟨by decide, cancellation_spec.1 1 (fun _ => true) (fun _ => 0) 0 (by decide) rfl⟩

end Tandem
